import Mathlib

/-!
Verification of the observability core of `hello-tool-base`:
the error taxonomy and JSON-RPC mapper (`internal/apperrors/errors.go`),
the metrics collector (`internal/metrics/server_metrics.go`), and the
tracing middleware (`internal/middleware/tracing.go`), shallowly embedded
in Lean 4 and checked against the specification's claims.
-/

namespace HelloTool

namespace Apperrors

/-- Values stored in a Go `map[string]interface{}`: the source only ever
stores strings (messages, context payloads) and `ErrorCode` integers in the
maps the claims are about, so the embedding distinguishes exactly those. -/
inductive GoValue where
  | str (s : String)
  | int (n : Int)
  deriving DecidableEq, Repr

/-- A Go `map[string]interface{}`, embedded as an association list.
Key uniqueness is maintained by the operations that build these lists
(assignment overwrites, insertion checks for presence). -/
abbrev Ctx := List (String × GoValue)

/- Error codes from the single `const` block of `errors.go`.  Go's `iota`
counts every spec line of the block, so `ErrResourceNotFound` is
`3000 + 4 = 3004`, not `3000`, and `ErrProtocolInvalid` is `4000 + 7 = 4007`:
the embedding keeps the values the compiled program actually uses. -/

/-- `ErrAuthFailure ErrorCode = 1000 + iota` with `iota = 0`. -/
def ErrAuthFailure : Int := 1000

/-- `ErrAuthExpired`, `iota = 1`. -/
def ErrAuthExpired : Int := 1001

/-- `ErrAuthInvalid`, `iota = 2`. -/
def ErrAuthInvalid : Int := 1002

/-- `ErrAuthMissing`, `iota = 3`. -/
def ErrAuthMissing : Int := 1003

/-- `ErrResourceNotFound ErrorCode = 3000 + iota` with `iota = 4`. -/
def ErrResourceNotFound : Int := 3004

/-- `ErrResourceForbidden`, `iota = 5`. -/
def ErrResourceForbidden : Int := 3005

/-- `ErrResourceInvalid`, `iota = 6`. -/
def ErrResourceInvalid : Int := 3006

/-- `ErrProtocolInvalid ErrorCode = 4000 + iota` with `iota = 7`. -/
def ErrProtocolInvalid : Int := 4007

/-- `ErrProtocolUnsupported`, `iota = 8`. -/
def ErrProtocolUnsupported : Int := 4008

/-- JSON-RPC parse error. -/
def ErrParseError : Int := -32700

/-- JSON-RPC invalid request. -/
def ErrInvalidRequest : Int := -32600

/-- JSON-RPC method not found. -/
def ErrMethodNotFound : Int := -32601

/-- JSON-RPC invalid params. -/
def ErrInvalidParams : Int := -32602

/-- JSON-RPC internal error. -/
def ErrInternalError : Int := -32603

/-- Custom server-defined code: invalid message sequence. -/
def ErrRequestSequence : Int := -32001

/-- Custom server-defined code: internal service lookup failed. -/
def ErrServiceNotFound : Int := -32002

/-- The concrete Go struct type wrapping an embedded `BaseError`.
`baseOnly` is a bare `*BaseError`; the others are the specific error
structs of `errors.go` (e.g. `*AuthError`), whose dynamic type is NOT
assignable to `*BaseError`. -/
inductive AppErrType where
  | baseOnly
  | auth
  | resource
  | protocol
  | invalidParams
  | methodNotFound
  | serviceNotFound
  | internal
  | parse
  | invalidRequest
  deriving DecidableEq, Repr

/-- A Go `error` value reachable in this program: either one of the
`apperrors` structs (carrying the embedded `BaseError`'s fields), a
`cockroachdb/errors` stack-annotation wrapper, or a foreign error with a
dynamic type name and a message.  `cause = none` models a nil `Cause`. -/
inductive GoError where
  | appErr (typ : AppErrType) (code : Int) (message : String)
      (cause : Option GoError) (context : Option Ctx)
  | withStack (inner : GoError)
  | foreign (typeName : String) (message : String)

/-- `errors.WithStack` from `cockroachdb/errors`: returns nil on nil input,
otherwise wraps the error (transparent to `Error()` and unwrapping). -/
def goWithStack : Option GoError → Option GoError
  | none => none
  | some e => some (.withStack e)

/-- The `Code` field of the embedded `BaseError` (0 for foreign errors,
which have no such field). -/
def GoError.codeOf : GoError → Int
  | .appErr _ code _ _ _ => code
  | .withStack inner => inner.codeOf
  | .foreign _ _ => 0

/-- The `Cause` field of the embedded `BaseError` (what `Unwrap` returns). -/
def GoError.causeOf : GoError → Option GoError
  | .appErr _ _ _ cause _ => cause
  | .withStack inner => some inner
  | .foreign _ _ => none

/-- The `Context` field of the embedded `BaseError`. -/
def GoError.contextOf : GoError → Option Ctx
  | .appErr _ _ _ _ ctx => ctx
  | .withStack inner => inner.contextOf
  | .foreign _ _ => none

/-- `Error()` of `BaseError` (promoted to every wrapping struct):
`"AppError (Code: %d): %s"` plus `": %v"` of the cause when present.
The `withStack` wrapper prints its inner error's message. -/
def GoError.errString : GoError → String
  | .appErr _ code msg cause _ =>
      match cause with
      | some c => "AppError (Code: " ++ toString code ++ "): " ++ msg ++ ": " ++ c.errString
      | none => "AppError (Code: " ++ toString code ++ "): " ++ msg
  | .withStack inner => inner.errString
  | .foreign _ msg => msg

/-- The dynamic type name `fmt.Sprintf("%T", err)`. -/
def GoError.goTypeName : GoError → String
  | .appErr t _ _ _ _ =>
      match t with
      | .baseOnly => "*apperrors.BaseError"
      | .auth => "*apperrors.AuthError"
      | .resource => "*apperrors.ResourceError"
      | .protocol => "*apperrors.ProtocolError"
      | .invalidParams => "*apperrors.InvalidParamsError"
      | .methodNotFound => "*apperrors.MethodNotFoundError"
      | .serviceNotFound => "*apperrors.ServiceNotFoundError"
      | .internal => "*apperrors.InternalError"
      | .parse => "*apperrors.ParseError"
      | .invalidRequest => "*apperrors.InvalidRequestError"
  | .withStack _ => "*withstack.withStack"
  | .foreign tn _ => tn

/-- `errors.As(err, &baseErr)` with target type `*BaseError`: walks the
unwrap chain and returns the fields of the first error whose dynamic type
is assignable to `*BaseError`.  A specific struct such as `*AuthError` is
not assignable to `*BaseError` (embedding does not create assignability in
Go), so the walk continues into its `Cause`; the `withStack` wrapper is
transparent. -/
def errorsAsBase : GoError → Option (Int × String × Option Ctx)
  | .appErr .baseOnly code msg _ ctx => some (code, msg, ctx)
  | .appErr _ _ _ (some c) _ => errorsAsBase c
  | .appErr _ _ _ none _ => none
  | .withStack inner => errorsAsBase inner
  | .foreign _ _ => none

/-- `NewAuthError`: coerces a code outside 1000..1999 to `ErrAuthFailure`,
wraps the cause with `errors.WithStack`, and stores the context as given. -/
def NewAuthError (code : Int) (message : String) (cause : Option GoError)
    (context : Option Ctx) : GoError :=
  let code' := if code < 1000 ∨ code > 1999 then ErrAuthFailure else code
  .appErr .auth code' message (goWithStack cause) context

/-- `NewResourceError`: coerces a code outside 3000..3999 to
`ErrResourceNotFound` (whose value is 3004). -/
def NewResourceError (code : Int) (message : String) (cause : Option GoError)
    (context : Option Ctx) : GoError :=
  let code' := if code < 3000 ∨ code > 3999 then ErrResourceNotFound else code
  .appErr .resource code' message (goWithStack cause) context

/-- `NewProtocolError`: performs no range validation at all; the
caller-supplied code is stored verbatim. -/
def NewProtocolError (code : Int) (message : String) (cause : Option GoError)
    (context : Option Ctx) : GoError :=
  .appErr .protocol code message (goWithStack cause) context

/-- The keys of a data / context map. -/
def ctxKeys (d : Ctx) : List String := d.map Prod.fst

/-- The fixed allowlist of context keys the mapper may copy into `data`
(the `case` labels of the context-merge `switch` in
`MapAppErrorToJSONRPC`). -/
def allowedKeys : List String :=
  ["uri", "toolName", "method", "serviceName", "parameter_name",
   "query_path", "requested_path"]

/-- `if _, exists := data[k]; !exists { data[k] = v }`: insert only when
the key is absent. -/
def dataSetIfAbsent (d : Ctx) (k : String) (v : GoValue) : Ctx :=
  if (ctxKeys d).contains k then d else d ++ [(k, v)]

/-- The context-merge loop of `MapAppErrorToJSONRPC`: each context entry is
copied into `data` only when its key is on the allowlist and not already
present; every other entry is dropped silently. -/
def mergeContext (d : Ctx) (ctx : Ctx) : Ctx :=
  ctx.foldl
    (fun acc kv =>
      if allowedKeys.contains kv.1 then dataSetIfAbsent acc kv.1 kv.2 else acc)
    d

/-- The `switch baseErr.Code` of `MapAppErrorToJSONRPC`, returning the wire
code, the fixed client-facing message, and the initial `data` map.  The
cases dispatch on the constant values of the `ErrorCode` constants: -32700
is `ErrParseError`, -32600 `ErrInvalidRequest`, -32601 `ErrMethodNotFound`,
-32602 `ErrInvalidParams`, -32603 `ErrInternalError`, -32002
`ErrServiceNotFound`, -32001 `ErrRequestSequence`, 3004
`ErrResourceNotFound`, 3006 `ErrResourceInvalid`, 3005
`ErrResourceForbidden`, 1000/1002/1001/1003 the four auth codes, 4007
`ErrProtocolInvalid`, and 4008 `ErrProtocolUnsupported`. -/
def mapSwitch (code : Int) (msg : String) : Int × String × Ctx :=
  match code with
  | -32700 =>
    (ErrParseError, "Parse error. The JSON received is not a valid JSON.",
     [("detail", .str msg)])
  | -32600 =>
    (ErrInvalidRequest, "Invalid Request. The JSON sent is not a valid Request object.",
     [("detail", .str msg)])
  | -32601 =>
    (ErrMethodNotFound, "Method not found. The method does not exist / is not available.",
     [("detail", .str msg)])
  | -32602 =>
    (ErrInvalidParams, "Invalid params. Invalid method parameter(s).",
     [("detail", .str msg)])
  | -32603 =>
    (ErrInternalError, "Internal error. Internal JSON-RPC error.",
     [("detail", .str msg)])
  | -32002 =>
    (ErrServiceNotFound,
     "Service unavailable. A required internal component or service was not found.",
     [("detail", .str msg)])
  | -32001 =>
    (ErrRequestSequence,
     "Invalid Request Sequence. The request is out of order or invalid for the current state.",
     [("detail", .str msg)])
  | 3004 =>
    (-32000, "Resource not found. The requested resource does not exist.",
     [("detail", .str msg)])
  | 3006 =>
    (-32003, "Invalid resource identifier or format.", [("detail", .str msg)])
  | 3005 =>
    (-32004, "Access to the resource is forbidden.", [("detail", .str msg)])
  | 1000 | 1002 | 1001 | 1003 =>
    (-32010, "Authentication required or failed.", [("detail", .str msg)])
  | 4007 =>
    (ErrInvalidRequest, "Invalid Request (API Protocol Error).",
     [("detail", .str msg), ("internalCode", .int code)])
  | 4008 =>
    (ErrMethodNotFound, "Unsupported Operation (API Protocol Error).",
     [("detail", .str msg), ("internalCode", .int code)])
  | _ =>
    (ErrInternalError, "An unspecified internal application error occurred.",
     [("detail", .str msg), ("internalCode", .int code)])

/-- The triple `(code, message, data)` returned by `MapAppErrorToJSONRPC`;
`data = none` models a nil map. -/
structure Mapped where
  code : Int
  message : String
  data : Option Ctx
  deriving DecidableEq, Repr

/-- The `data` map assembled for a recognized `BaseError`: the switch's
initial map, merged with the error's context when the context is non-nil. -/
def mapData (code : Int) (msg : String) (ctx : Option Ctx) : Ctx :=
  match ctx with
  | some cctx => mergeContext (mapSwitch code msg).2.2 cctx
  | none => (mapSwitch code msg).2.2

/-- `MapAppErrorToJSONRPC`: if no `*BaseError` is found in the unwrap
chain, return the generic internal error with the dynamic type name and
the original message in `data`; otherwise run the code switch, merge the
allowlisted context keys, and null out an empty `data`. -/
def MapAppErrorToJSONRPC (err : GoError) : Mapped :=
  match errorsAsBase err with
  | none =>
      { code := ErrInternalError
        message := "An internal server error occurred."
        data := some [("goErrorType", .str err.goTypeName),
                      ("detail", .str err.errString)] }
  | some (code, msg, ctx) =>
      { code := (mapSwitch code msg).1
        message := (mapSwitch code msg).2.1
        data := if mapData code msg ctx = [] then none
                else some (mapData code msg ctx) }

/-- The wire-safe code space of the spec: the five standard JSON-RPC codes
plus the custom band from -32099 to -32000. -/
def wireSafe (c : Int) : Prop :=
  c = ErrParseError ∨ c = ErrInvalidRequest ∨ c = ErrMethodNotFound
    ∨ c = ErrInvalidParams ∨ c = ErrInternalError
    ∨ (-32099 ≤ c ∧ c ≤ -32000)

instance (c : Int) : Decidable (wireSafe c) := by
  unfold wireSafe; infer_instance

end Apperrors

namespace Metrics

/-- `ErrorInfo` from `server_metrics.go`; `time.Now()` is modeled as an
abstract tick supplied by the caller of the recording operation. -/
structure ErrorInfo where
  timestamp : Nat
  component : String
  message : String
  stack : String
  deriving DecidableEq, Repr

/-- A Go `map[string]int`, embedded as an association list with unique
keys (assignment overwrites in place, otherwise appends). -/
abbrev LatMap := List (String × Int)

/-- Go map lookup `m[k]` with its `ok` flag folded into `Option`. -/
def latLookup (m : LatMap) (k : String) : Option Int :=
  (m.find? (fun kv => kv.1 = k)).map Prod.snd

/-- Go map assignment `m[k] = v`: overwrite the existing entry or append. -/
def latAssign (m : LatMap) (k : String) (v : Int) : LatMap :=
  if (m.map Prod.fst).contains k then
    m.map (fun kv => if kv.1 = k then (k, v) else kv)
  else m ++ [(k, v)]

/-- The state of a `Collector` together with its `ServerMetrics` counters,
flattened: `totalRequests ... requestLatencies` are the fields of
`c.metrics`, `activeConnections` is the `map[string]bool` key set (the
operations keep it duplicate-free, as Go map keys are), `errorBuffer` and
`bufferSize` are the collector's own fields.  The runtime gauges (uptime,
goroutines, memory) are read from the runtime at snapshot time and touch
no claim, so they are not part of the state. -/
structure Collector where
  totalRequests : Int
  failedRequests : Int
  requestLatencies : LatMap
  activeConnGauge : Int
  totalConnections : Int
  failedConnections : Int
  activeConnections : List String
  errorBuffer : List ErrorInfo
  bufferSize : Int
  deriving DecidableEq, Repr

/-- `NewCollector`: empty maps and buffer, zero counters. -/
def NewCollector (errorBufferSize : Int) : Collector :=
  { totalRequests := 0, failedRequests := 0, requestLatencies := []
    activeConnGauge := 0, totalConnections := 0, failedConnections := 0
    activeConnections := [], errorBuffer := [], bufferSize := errorBufferSize }

/-- `Collector.RecordRequest`: bump the request counters, then blend the
per-identifier latency estimate with Go's truncating integer division
(`Int.tdiv` rounds toward zero exactly as Go's `/` on `int` does). -/
def recordRequest (c : Collector) (identifier : String) (latencyMs : Int)
    (success : Bool) : Collector :=
  let c := { c with totalRequests := c.totalRequests + 1 }
  let c := if success then c else { c with failedRequests := c.failedRequests + 1 }
  match latLookup c.requestLatencies identifier with
  | some existingAvg =>
      { c with requestLatencies :=
          latAssign c.requestLatencies identifier (Int.tdiv (existingAvg + latencyMs) 2) }
  | none =>
      { c with requestLatencies := latAssign c.requestLatencies identifier latencyMs }

/-- `Collector.RecordConnection`: on `active`, insert the id if new and
count it in `TotalConnections`; otherwise delete the id.  Either way the
`ActiveConnections` gauge is recomputed as the size of the tracked set. -/
def recordConnection (c : Collector) (connectionID : String) (active : Bool) :
    Collector :=
  let c :=
    if active then
      if c.activeConnections.contains connectionID then c
      else
        { c with activeConnections := c.activeConnections ++ [connectionID]
                 totalConnections := c.totalConnections + 1 }
    else
      { c with activeConnections :=
          c.activeConnections.filter (fun x => x ≠ connectionID) }
  { c with activeConnGauge := (c.activeConnections.length : Int) }

/-- `Collector.RecordConnectionFailure`. -/
def recordConnectionFailure (c : Collector) : Collector :=
  { c with failedConnections := c.failedConnections + 1 }

/-- `Collector.RecordError`: no-op when the configured capacity is not
positive; otherwise evict the oldest entry if the buffer is full, then
append the new timestamped entry. -/
def recordError (c : Collector) (now : Nat) (component message stack : String) :
    Collector :=
  let errorInfo : ErrorInfo :=
    { timestamp := now, component := component, message := message, stack := stack }
  if c.bufferSize ≤ 0 then c
  else
    let buf :=
      if (c.errorBuffer.length : Int) ≥ c.bufferSize then c.errorBuffer.drop 1
      else c.errorBuffer
    { c with errorBuffer := buf ++ [errorInfo] }

/-- One `RecordError` call with the fields taken from a prebuilt record. -/
def recordErrorInfo (c : Collector) (e : ErrorInfo) : Collector :=
  recordError c e.timestamp e.component e.message e.stack

/-- A sequence of `RecordError` calls. -/
def recordErrors (c : Collector) (es : List ErrorInfo) : Collector :=
  es.foldl recordErrorInfo c

/- Reference-level model of the snapshot path.  In Go, `map` and slice
values are references into the heap: the struct assignment
`metricsCopy := c.metrics` inside `GetCurrentMetrics` copies the
`RequestLatencies` map header — the reference — not the underlying table,
whereas the code then explicitly allocates a fresh backing array for
`LastErrors`.  The heap makes those references explicit so that sharing
between the snapshot and the collector is a provable statement. -/

/-- The heap: map objects and slice backing arrays, addressed by index. -/
structure Heap where
  maps : List LatMap
  slices : List (List ErrorInfo)
  deriving DecidableEq, Repr

/-- The fields of `ServerMetrics` relevant to the snapshot claims, with
the map-valued and slice-valued fields held by reference.
`lastErrorsRef = none` models a nil `LastErrors` slice. -/
structure HServerMetrics where
  totalRequests : Int
  failedRequests : Int
  totalConnections : Int
  latenciesRef : Nat
  lastErrorsRef : Option Nat
  deriving DecidableEq, Repr

/-- The collector in the reference-level model. -/
structure HCollector where
  metrics : HServerMetrics
  errorBuffer : List ErrorInfo
  bufferSize : Int
  deriving DecidableEq, Repr

/-- Dereference a map. -/
def heapReadMap (h : Heap) (r : Nat) : LatMap := h.maps[r]?.getD []

/-- A caller writing through a map reference: `m[k] = v` on the object at
address `r` (this is what `snapshot.RequestLatencies[k] = v` does). -/
def heapWriteMap (h : Heap) (r : Nat) (k : String) (v : Int) : Heap :=
  { h with maps := h.maps.set r (latAssign (heapReadMap h r) k v) }

/-- Dereference a slice backing array. -/
def heapReadSlice (h : Heap) (r : Nat) : List ErrorInfo := h.slices[r]?.getD []

/-- A caller overwriting an element of a returned slice,
`snapshot.LastErrors[i] = e`. -/
def heapWriteSliceAt (h : Heap) (r : Nat) (i : Nat) (e : ErrorInfo) : Heap :=
  { h with slices := h.slices.set r ((heapReadSlice h r).set i e) }

/-- `NewCollector` in the reference model: allocates a fresh empty
`RequestLatencies` map. -/
def hNewCollector (h : Heap) (errorBufferSize : Int) : Heap × HCollector :=
  let r := h.maps.length
  (⟨h.maps ++ [[]], h.slices⟩,
   ⟨⟨0, 0, 0, r, none⟩, [], errorBufferSize⟩)

/-- `Collector.GetCurrentMetrics`, reference model: `metricsCopy := c.metrics`
copies every scalar field and the `latenciesRef` map reference as-is; only
`LastErrors` gets a freshly allocated copy of the error buffer (or nil when
the buffer is empty). -/
def hGetCurrentMetrics (h : Heap) (c : HCollector) : Heap × HServerMetrics :=
  let metricsCopy := c.metrics
  if c.errorBuffer.length > 0 then
    let r := h.slices.length
    (⟨h.maps, h.slices ++ [c.errorBuffer]⟩, { metricsCopy with lastErrorsRef := some r })
  else
    (h, { metricsCopy with lastErrorsRef := none })

/-- `Collector.RecordRequest`, reference model: the latency update writes
through the collector's `latenciesRef` into the heap. -/
def hRecordRequest (h : Heap) (c : HCollector) (identifier : String)
    (latencyMs : Int) (success : Bool) : Heap × HCollector :=
  let c :=
    { c with metrics := { c.metrics with totalRequests := c.metrics.totalRequests + 1 } }
  let c :=
    if success then c
    else { c with metrics := { c.metrics with failedRequests := c.metrics.failedRequests + 1 } }
  let m := heapReadMap h c.metrics.latenciesRef
  let m' :=
    match latLookup m identifier with
    | some existingAvg => latAssign m identifier (Int.tdiv (existingAvg + latencyMs) 2)
    | none => latAssign m identifier latencyMs
  ({ h with maps := h.maps.set c.metrics.latenciesRef m' }, c)

end Metrics

namespace Middleware

/-- The part of an `http.Request` the `Tracing` middleware reads: the value
of the `X-Cloud-Trace-Context` header, where `""` is what
`r.Header.Get` returns when the header is absent. -/
structure HttpRequest where
  cloudTraceContext : String
  deriving DecidableEq, Repr

/-- The trace id the middleware computes and sets on the outbound
`X-Trace-ID` response header (and stores in the request context): the
inbound header when non-empty, otherwise `"generated-"` plus a fresh UUID
string from `uuid.New()`, supplied here as the `uuidStr` argument. -/
def tracingTraceID (uuidStr : String) (req : HttpRequest) : String :=
  let traceID := req.cloudTraceContext
  if traceID = "" then "generated-" ++ uuidStr else traceID

end Middleware

namespace Apperrors

/-- The object state of a `*BaseError` on the heap: the fields
`WithContext` can observe and mutate.  (`Cause` is omitted: `WithContext`
never touches it and no aliasing claim involves it.) -/
structure BaseErrObj where
  code : Int
  message : String
  context : Option Ctx
  deriving DecidableEq, Repr

/-- Go map assignment `m[k] = v` on a context map. -/
def ctxAssign (m : Ctx) (k : String) (v : GoValue) : Ctx :=
  if (ctxKeys m).contains k then
    m.map (fun kv => if kv.1 = k then (k, v) else kv)
  else m ++ [(k, v)]

/-- `BaseError.WithContext`, reference model over a heap of `BaseErrObj`
addressed by index: it initializes the receiver's `Context` map if nil,
stores the pair into it, and returns the receiver pointer itself — the
object at address `r` is updated in place and the returned reference is
`r`. -/
def withContextGo (h : List BaseErrObj) (r : Nat) (k : String) (v : GoValue) :
    List BaseErrObj × Nat :=
  match h[r]? with
  | some obj =>
      let ctx := obj.context.getD []
      (h.set r { obj with context := some (ctxAssign ctx k v) }, r)
  | none => (h, r)

/-- A one-object heap holding a freshly constructed `BaseError` with no
context, used to evaluate `WithContext` at a concrete input. -/
def exampleErrHeap : List BaseErrObj := [{ code := 1000, message := "m", context := none }]

end Apperrors

namespace Metrics

/-- A concrete heap with one `RequestLatencies` map `{"x": 100}` at
address 0, used to evaluate the snapshot path. -/
def exampleHeap : Heap := { maps := [[("x", 100)]], slices := [] }

/-- A concrete collector whose `RequestLatencies` reference points at
address 0 of `exampleHeap`. -/
def exampleCollector : HCollector :=
  { metrics := { totalRequests := 5, failedRequests := 1, totalConnections := 2
                 latenciesRef := 0, lastErrorsRef := none }
    errorBuffer := [], bufferSize := 10 }

/-- Three concrete error records, used to evaluate the bounded buffer at
capacity 2. -/
def exampleErrors : List ErrorInfo :=
  [{ timestamp := 1, component := "a", message := "m1", stack := "" },
   { timestamp := 2, component := "b", message := "m2", stack := "" },
   { timestamp := 3, component := "c", message := "m3", stack := "" }]

end Metrics

end HelloTool

namespace HelloTool

open Apperrors Metrics Middleware

/-- Looking up a key right after assigning it yields the assigned value,
whichever branch (overwrite or append) the assignment took. -/
theorem latLookup_latAssign_self (m : LatMap) (k : String) (v : Int) :
    latLookup (latAssign m k v) k = some v := by
  induction m with
  | nil => simp [latAssign, latLookup]
  | cons kv rest ih =>
    by_cases hk : kv.1 = k
    · simp [latAssign, latLookup, List.find?, hk]
    · by_cases hr : k ∈ rest.map Prod.fst
      · simp only [latAssign, latLookup, List.map_cons, List.contains_cons] at ih ⊢
        simp [hk, hr, List.find?, Ne.symm hk] at ih ⊢
        exact ih
      · simp only [latAssign, latLookup, List.map_cons, List.contains_cons] at ih ⊢
        simp [hk, hr, List.find?, Ne.symm hk] at ih ⊢
        exact ih

/-- A string starting with the literal `generated-` is not empty. -/
theorem generated_append_ne_empty (u : String) : ("generated-" ++ u) ≠ "" := by
  intro h
  have h1 := congrArg String.length h
  rw [String.length_append] at h1
  have h2 : ("generated-" : String).length = 10 := rfl
  have h3 : ("" : String).length = 0 := rfl
  rw [h2, h3] at h1
  omega

/-- Appending to the literal `generated-` is injective. -/
theorem generated_append_inj (u1 u2 : String)
    (h : ("generated-" ++ u1) = ("generated-" ++ u2)) : u1 = u2 := by
  have hd := congrArg String.data h
  simp [String.data_append] at hd
  exact String.ext hd

/-- Claim C2, corrected, counterexample to the claim as stated: the
protocol-category constructor called with the out-of-range code 9999
(the documented protocol range is 4000..4999) returns an error carrying
the caller-supplied 9999 itself, not the category default
`ErrProtocolInvalid`. -/
theorem claim_C2_counterexample :
    (9999 : Int) > 4999 ∧
    (NewProtocolError 9999 "boom" none none).codeOf = 9999 ∧
    (NewProtocolError 9999 "boom" none none).codeOf ≠ ErrProtocolInvalid := by
  decide

/-- Claim C2, amended: `NewAuthError` and `NewResourceError` silently
substitute their category defaults (`ErrAuthFailure`, `ErrResourceNotFound`)
for any code outside their documented range, and no error is raised;
`NewProtocolError` performs no range validation and stores the
caller-supplied code verbatim. -/
theorem claim_C2_amended :
    (∀ (code : Int) (msg : String) (cause : Option GoError) (ctx : Option Ctx),
        code < 1000 ∨ code > 1999 →
        (NewAuthError code msg cause ctx).codeOf = ErrAuthFailure) ∧
    (∀ (code : Int) (msg : String) (cause : Option GoError) (ctx : Option Ctx),
        code < 3000 ∨ code > 3999 →
        (NewResourceError code msg cause ctx).codeOf = ErrResourceNotFound) ∧
    (∀ (code : Int) (msg : String) (cause : Option GoError) (ctx : Option Ctx),
        (NewProtocolError code msg cause ctx).codeOf = code) := by
  refine ⟨?_, ?_, ?_⟩
  · intro code msg cause ctx h
    simp only [NewAuthError, GoError.codeOf]
    rw [if_pos h]
  · intro code msg cause ctx h
    simp only [NewResourceError, GoError.codeOf]
    rw [if_pos h]
  · intro code msg cause ctx
    rfl

/-- Witness for the amended claim C2 at concrete inputs: an auth code of
2500 is coerced to 1000, a resource code of 5 is coerced to 3004, and a
protocol code passes through. -/
theorem claim_C2_witness :
    (NewAuthError 2500 "m" none none).codeOf = ErrAuthFailure ∧
    (NewResourceError 5 "m" none none).codeOf = ErrResourceNotFound ∧
    (NewProtocolError 4007 "m" none none).codeOf = 4007 :=
  ⟨claim_C2_amended.1 2500 "m" none none (by decide),
   claim_C2_amended.2.1 5 "m" none none (by decide),
   claim_C2_amended.2.2 4007 "m" none none⟩

/-- Claim C10: each of the three category constructors called with a nil
cause produces an error whose `Unwrap` (the `Cause` field) is nil — since
`errors.WithStack(nil)` is nil — and whose `Error()` string is exactly
`AppError (Code: <code>): <message>` with no trailing cause segment; in
the embedding the constructors are total functions, so construction
cannot panic. -/
theorem claim_C10_nil_cause :
    ∀ (code : Int) (msg : String) (ctx : Option Ctx),
      ((NewAuthError code msg none ctx).causeOf = none ∧
        (NewAuthError code msg none ctx).errString =
          "AppError (Code: " ++ toString (NewAuthError code msg none ctx).codeOf ++ "): " ++ msg) ∧
      ((NewResourceError code msg none ctx).causeOf = none ∧
        (NewResourceError code msg none ctx).errString =
          "AppError (Code: " ++ toString (NewResourceError code msg none ctx).codeOf ++ "): " ++ msg) ∧
      ((NewProtocolError code msg none ctx).causeOf = none ∧
        (NewProtocolError code msg none ctx).errString =
          "AppError (Code: " ++ toString (NewProtocolError code msg none ctx).codeOf ++ "): " ++ msg) := by
  intro code msg ctx
  exact ⟨⟨rfl, rfl⟩, ⟨rfl, rfl⟩, ⟨rfl, rfl⟩⟩

/-- Claim C7: `RecordRequest` updates the per-identifier latency estimate
by the two-point blend `(old + latencyMs) / 2` (Go's truncating integer
division) when an entry exists and seeds it with `latencyMs` otherwise;
concretely, recording 100 then 200 for `x` yields exactly 150, and a
further recording of 0 yields exactly 75. -/
theorem claim_C7_latency_blend :
    (∀ (c : Collector) (identifier : String) (latencyMs : Int) (success : Bool),
        latLookup (recordRequest c identifier latencyMs success).requestLatencies identifier =
          some (match latLookup c.requestLatencies identifier with
                | some existingAvg => Int.tdiv (existingAvg + latencyMs) 2
                | none => latencyMs)) ∧
    (latLookup (recordRequest (NewCollector 10) "x" 100 true).requestLatencies "x" = some 100 ∧
      latLookup (recordRequest (recordRequest (NewCollector 10) "x" 100 true)
          "x" 200 true).requestLatencies "x" = some 150 ∧
      latLookup (recordRequest (recordRequest (recordRequest (NewCollector 10) "x" 100 true)
          "x" 200 true) "x" 0 true).requestLatencies "x" = some 75) := by
  refine ⟨?_, by decide⟩
  intro c identifier latencyMs success
  cases success <;>
    cases h : latLookup c.requestLatencies identifier <;>
      simp [recordRequest, h, latLookup_latAssign_self]

/-- Claim C1, evaluation of the code at the failing input: the snapshot
returned by `GetCurrentMetrics` holds the very same `RequestLatencies`
map reference as the collector (the struct assignment copies the map
header, not the table), so writing `999` into the snapshot's map changes
what the collector reads internally from `100` to `999`, and a subsequent
`RecordRequest` through the collector changes what the already-returned
snapshot's map shows. -/
theorem claim_C1_snapshot_shares_latency_map :
    (hGetCurrentMetrics exampleHeap exampleCollector).2.latenciesRef =
      exampleCollector.metrics.latenciesRef ∧
    heapReadMap exampleHeap exampleCollector.metrics.latenciesRef = [("x", 100)] ∧
    heapReadMap
        (heapWriteMap (hGetCurrentMetrics exampleHeap exampleCollector).1
          (hGetCurrentMetrics exampleHeap exampleCollector).2.latenciesRef "x" 999)
        exampleCollector.metrics.latenciesRef = [("x", 999)] ∧
    heapReadMap
        (hRecordRequest (hGetCurrentMetrics exampleHeap exampleCollector).1
          exampleCollector "x" 300 true).1
        (hGetCurrentMetrics exampleHeap exampleCollector).2.latenciesRef = [("x", 200)] := by
  decide

/-- Claim C9, corrected, counterexample to the claim as stated:
`WithContext` on a freshly constructed error mutates the receiver object
in place — after the call the object at the receiver's address has
changed — and returns the receiver's own address, not a copy. -/
theorem claim_C9_counterexample :
    (withContextGo exampleErrHeap 0 "k" (.str "v")).2 = 0 ∧
    (withContextGo exampleErrHeap 0 "k" (.str "v")).1[0]? ≠ exampleErrHeap[0]? := by
  decide

/-- Claim C9, amended: `WithContext` mutates the receiver in place
(initializing the `Context` map if nil, then storing the pair) and
returns the same pointer for chaining; the original error value observes
the new key-value pair, while every other heap object is untouched. -/
theorem claim_C9_amended :
    ∀ (h : List BaseErrObj) (r : Nat) (k : String) (v : GoValue) (obj : BaseErrObj),
      h[r]? = some obj →
      (withContextGo h r k v).2 = r ∧
      (withContextGo h r k v).1[r]? =
        some { obj with context := some (ctxAssign (obj.context.getD []) k v) } ∧
      ∀ i, i ≠ r → (withContextGo h r k v).1[i]? = h[i]? := by
  intro h r k v obj hobj
  have hr : r < h.length := by
    by_contra hge
    rw [List.getElem?_eq_none (by omega)] at hobj
    exact Option.noConfusion hobj
  refine ⟨?_, ?_, ?_⟩
  · simp [withContextGo, hobj]
  · simp only [withContextGo, hobj]
    simp [List.getElem?_set_self', List.getElem?_eq_getElem hr]
  · intro i hi
    simp only [withContextGo, hobj]
    simpa using List.getElem?_set_ne (Ne.symm hi)

/-- Witness for the amended claim C9 at a concrete input: augmenting the
single error object at address 0 with `k ↦ v` returns address 0 and the
object there now carries the context `{k: v}`. -/
theorem claim_C9_witness :
    (withContextGo exampleErrHeap 0 "k" (.str "v")).2 = 0 ∧
    (withContextGo exampleErrHeap 0 "k" (.str "v")).1[0]? =
      some { code := 1000, message := "m", context := some [("k", .str "v")] } :=
  ⟨(claim_C9_amended exampleErrHeap 0 "k" (.str "v")
      { code := 1000, message := "m", context := none } rfl).1,
   (claim_C9_amended exampleErrHeap 0 "k" (.str "v")
      { code := 1000, message := "m", context := none } rfl).2.1⟩

/-- Claim C8: the tracing middleware echoes a non-empty inbound
`X-Cloud-Trace-Context` header verbatim into the outbound `X-Trace-ID`
header; with no inbound header it sets a non-empty generated value, and
two requests whose freshly generated UUIDs differ (which `uuid.New`
guarantees with overwhelming probability) receive distinct outbound
values. -/
theorem claim_C8_trace_header :
    (∀ (uuidStr : String) (req : HttpRequest), req.cloudTraceContext ≠ "" →
        tracingTraceID uuidStr req = req.cloudTraceContext) ∧
    (∀ (uuidStr : String) (req : HttpRequest), req.cloudTraceContext = "" →
        tracingTraceID uuidStr req ≠ "") ∧
    (∀ (u1 u2 : String) (r1 r2 : HttpRequest),
        r1.cloudTraceContext = "" → r2.cloudTraceContext = "" → u1 ≠ u2 →
        tracingTraceID u1 r1 ≠ tracingTraceID u2 r2) := by
  refine ⟨?_, ?_, ?_⟩
  · intro u req h
    simp [tracingTraceID, h]
  · intro u req h
    simp only [tracingTraceID, h, if_pos]
    exact generated_append_ne_empty u
  · intro u1 u2 r1 r2 h1 h2 hu
    simp only [tracingTraceID, h1, h2, if_pos]
    intro h
    exact hu (generated_append_inj u1 u2 h)

/-- Witness for claim C8 at concrete inputs: an inbound id `abc` is
echoed, and with no inbound header the outbound ids for UUIDs `u1` and
`u2` are non-empty and distinct. -/
theorem claim_C8_witness :
    tracingTraceID "u" { cloudTraceContext := "abc" } = "abc" ∧
    tracingTraceID "u" { cloudTraceContext := "" } ≠ "" ∧
    tracingTraceID "u1" { cloudTraceContext := "" } ≠
      tracingTraceID "u2" { cloudTraceContext := "" } :=
  ⟨claim_C8_trace_header.1 "u" { cloudTraceContext := "abc" } (by decide),
   claim_C8_trace_header.2.1 "u" { cloudTraceContext := "" } rfl,
   claim_C8_trace_header.2.2 "u1" "u2" { cloudTraceContext := "" }
     { cloudTraceContext := "" } rfl rfl (by decide)⟩

/-- Every branch of the code switch yields a wire-safe code. -/
theorem mapSwitch_wireSafe (code : Int) (msg : String) :
    wireSafe (mapSwitch code msg).1 := by
  unfold mapSwitch
  split <;> exact of_decide_eq_true rfl

/-- Every branch of the code switch yields a non-empty fixed message. -/
theorem mapSwitch_message_ne (code : Int) (msg : String) :
    (mapSwitch code msg).2.1 ≠ "" := by
  unfold mapSwitch
  split <;> exact of_decide_eq_true rfl

/-- Every branch of the code switch seeds the data map with `detail`, so
it is never empty. -/
theorem mapSwitch_data_ne_nil (code : Int) (msg : String) :
    (mapSwitch code msg).2.2 ≠ [] := by
  unfold mapSwitch
  split <;> simp

/-- The keys the code switch itself writes are only `detail` and
`internalCode`. -/
theorem mapSwitch_data_keys (code : Int) (msg : String) :
    ctxKeys (mapSwitch code msg).2.2 ⊆ ["detail", "internalCode"] := by
  unfold mapSwitch
  split <;> simp [ctxKeys]

/-- Insert-if-absent never empties the map. -/
theorem dataSetIfAbsent_ne_nil (d : Ctx) (k : String) (v : GoValue) (hd : d ≠ []) :
    dataSetIfAbsent d k v ≠ [] := by
  unfold dataSetIfAbsent
  split
  · exact hd
  · simp

/-- The context merge never empties the map. -/
theorem mergeContext_ne_nil (ctx : Ctx) (d : Ctx) (hd : d ≠ []) :
    mergeContext d ctx ≠ [] := by
  induction ctx generalizing d with
  | nil => exact hd
  | cons kv rest ih =>
    have he : mergeContext d (kv :: rest) =
        mergeContext (if allowedKeys.contains kv.1 then dataSetIfAbsent d kv.1 kv.2 else d)
          rest := rfl
    rw [he]
    split
    · exact ih _ (dataSetIfAbsent_ne_nil d kv.1 kv.2 hd)
    · exact ih _ hd

/-- Insert-if-absent adds at most the inserted key. -/
theorem ctxKeys_dataSetIfAbsent (d : Ctx) (k' : String) (v : GoValue) (k : String)
    (hk : k ∈ ctxKeys (dataSetIfAbsent d k' v)) : k ∈ ctxKeys d ∨ k = k' := by
  unfold dataSetIfAbsent at hk
  split at hk
  · exact Or.inl hk
  · unfold ctxKeys at hk ⊢
    rw [List.map_append] at hk
    rcases List.mem_append.mp hk with h | h
    · exact Or.inl h
    · simp at h
      exact Or.inr h

/-- The context merge only ever adds keys from the allowlist. -/
theorem ctxKeys_mergeContext (ctx : Ctx) (d : Ctx) (k : String)
    (hk : k ∈ ctxKeys (mergeContext d ctx)) : k ∈ ctxKeys d ∨ k ∈ allowedKeys := by
  induction ctx generalizing d with
  | nil => exact Or.inl hk
  | cons kv rest ih =>
    have he : mergeContext d (kv :: rest) =
        mergeContext (if allowedKeys.contains kv.1 then dataSetIfAbsent d kv.1 kv.2 else d)
          rest := rfl
    rw [he] at hk
    by_cases ha : allowedKeys.contains kv.1
    · rw [if_pos ha] at hk
      rcases ih _ hk with h | h
      · rcases ctxKeys_dataSetIfAbsent d kv.1 kv.2 k h with h' | h'
        · exact Or.inl h'
        · subst h'
          exact Or.inr (by simpa using ha)
      · exact Or.inr h
    · rw [if_neg ha] at hk
      exact ih _ hk

/-- Dropping the non-allowlisted context entries before the merge does not
change its result: those entries are skipped either way. -/
theorem mergeContext_filter (ctx : Ctx) (d : Ctx) :
    mergeContext d (ctx.filter (fun kv => allowedKeys.contains kv.1)) =
      mergeContext d ctx := by
  induction ctx generalizing d with
  | nil => rfl
  | cons kv rest ih =>
    have he : mergeContext d (kv :: rest) =
        mergeContext (if allowedKeys.contains kv.1 then dataSetIfAbsent d kv.1 kv.2 else d)
          rest := rfl
    by_cases ha : allowedKeys.contains kv.1
    · have ham : kv.1 ∈ allowedKeys := by simpa using ha
      have hf : (kv :: rest).filter (fun kv => allowedKeys.contains kv.1) =
          kv :: rest.filter (fun kv => allowedKeys.contains kv.1) := by
        simp [List.filter_cons, ham]
      rw [hf]
      have he' : mergeContext d (kv :: rest.filter (fun kv => allowedKeys.contains kv.1)) =
          mergeContext (if allowedKeys.contains kv.1 then dataSetIfAbsent d kv.1 kv.2 else d)
            (rest.filter (fun kv => allowedKeys.contains kv.1)) := rfl
      rw [he', he, if_pos ha, ih]
    · have ham : kv.1 ∉ allowedKeys := by simpa using ha
      have hf : (kv :: rest).filter (fun kv => allowedKeys.contains kv.1) =
          rest.filter (fun kv => allowedKeys.contains kv.1) := by
        simp [List.filter_cons, ham]
      rw [hf, he, if_neg ha, ih]

/-- The assembled data map is never empty: the switch seeds it and the
merge never removes entries. -/
theorem mapData_ne_nil (code : Int) (msg : String) (ctx : Option Ctx) :
    mapData code msg ctx ≠ [] := by
  cases ctx with
  | none => exact mapSwitch_data_ne_nil code msg
  | some cctx => exact mergeContext_ne_nil cctx _ (mapSwitch_data_ne_nil code msg)

/-- Every key of the assembled data map is a mapper-owned field or an
allowlisted context key. -/
theorem mapData_keys (code : Int) (msg : String) (ctx : Option Ctx) (k : String)
    (hk : k ∈ ctxKeys (mapData code msg ctx)) :
    k ∈ (["detail", "internalCode"] : List String) ∨ k ∈ allowedKeys := by
  cases ctx with
  | none => exact Or.inl (mapSwitch_data_keys code msg hk)
  | some cctx =>
    rcases ctxKeys_mergeContext cctx _ k hk with h | h
    · exact Or.inl (mapSwitch_data_keys code msg h)
    · exact Or.inr h

/-- The mapper's output when no `*BaseError` is found in the chain. -/
theorem mapErr_eq_none (err : GoError) (hs : errorsAsBase err = none) :
    MapAppErrorToJSONRPC err =
      { code := ErrInternalError
        message := "An internal server error occurred."
        data := some [("goErrorType", .str err.goTypeName),
                      ("detail", .str err.errString)] } := by
  unfold MapAppErrorToJSONRPC
  rw [hs]

/-- The mapper's output when a `*BaseError` is found in the chain. -/
theorem mapErr_eq_some (err : GoError) (code : Int) (msg : String) (ctx : Option Ctx)
    (hs : errorsAsBase err = some (code, msg, ctx)) :
    MapAppErrorToJSONRPC err =
      { code := (mapSwitch code msg).1
        message := (mapSwitch code msg).2.1
        data := if mapData code msg ctx = [] then none
                else some (mapData code msg ctx) } := by
  unfold MapAppErrorToJSONRPC
  rw [hs]

/-- Claim C3: `MapAppErrorToJSONRPC` is total over error values: for every
input error — domain or foreign, with or without a cause, wrapped or not —
it returns a wire code drawn only from the five standard JSON-RPC codes
and the -32000..-32099 custom band (never a positive internal category
code), a non-empty message, and data that is nil or a non-empty map. -/
theorem claim_C3_mapper_total :
    ∀ err : GoError,
      wireSafe (MapAppErrorToJSONRPC err).code ∧
      (MapAppErrorToJSONRPC err).message ≠ "" ∧
      (MapAppErrorToJSONRPC err).data ≠ some [] := by
  intro err
  cases hs : errorsAsBase err with
  | none =>
    rw [mapErr_eq_none err hs]
    exact ⟨show wireSafe ErrInternalError by decide,
      show ("An internal server error occurred." : String) ≠ "" by decide, by simp⟩
  | some t =>
    obtain ⟨code, msg, ctx⟩ := t
    rw [mapErr_eq_some err code msg ctx hs]
    refine ⟨mapSwitch_wireSafe code msg, mapSwitch_message_ne code msg, ?_⟩
    by_cases hd : mapData code msg ctx = []
    · simp [hd]
    · simp only [if_neg hd, ne_eq, Option.some.injEq]
      exact fun hc => hd hc

/-- Claim C4, corrected, counterexample to the claim as stated: for the
domain error with code -32700 and context `{detail: 7}`, the key `detail`
is not on the allowlist and is present in the error's context, yet it does
appear as a key of the returned data map — because the mapper itself
always stores the error's message under `detail`. -/
theorem claim_C4_counterexample :
    "detail" ∉ allowedKeys ∧
    "detail" ∈ ctxKeys ((GoError.appErr .baseOnly (-32700) "m" none
        (some [("detail", .int 7)])).contextOf.getD []) ∧
    "detail" ∈ ctxKeys ((MapAppErrorToJSONRPC (.appErr .baseOnly (-32700) "m" none
        (some [("detail", .int 7)]))).data.getD []) := by
  decide

/-- Claim C4, amended: non-allowlisted context keys are never copied into
the returned data — every key of `data` is either an allowlisted context
key or one of the mapper's own fields `detail`, `internalCode`,
`goErrorType`, and filtering the non-allowlisted entries out of the
context beforehand leaves the mapper's output unchanged (they are dropped
silently). -/
theorem claim_C4_amended :
    (∀ (err : GoError) (k : String),
        k ∉ allowedKeys → k ≠ "detail" → k ≠ "internalCode" → k ≠ "goErrorType" →
        k ∉ ctxKeys ((MapAppErrorToJSONRPC err).data.getD [])) ∧
    (∀ (code : Int) (msg : String) (cause : Option GoError) (cctx : Ctx),
        MapAppErrorToJSONRPC (.appErr .baseOnly code msg cause (some cctx)) =
          MapAppErrorToJSONRPC (.appErr .baseOnly code msg cause
            (some (cctx.filter (fun kv => allowedKeys.contains kv.1))))) := by
  constructor
  · intro err k hka hkd hki hkg
    cases hs : errorsAsBase err with
    | none =>
      rw [mapErr_eq_none err hs]
      simp only [Option.getD_some]
      intro hmem
      unfold ctxKeys at hmem
      simp at hmem
      rcases hmem with h | h
      · exact hkg h
      · exact hkd h
    | some t =>
      obtain ⟨code, msg, ctx⟩ := t
      rw [mapErr_eq_some err code msg ctx hs]
      by_cases hd : mapData code msg ctx = []
      · simp [hd, ctxKeys]
      · simp only [if_neg hd, Option.getD_some]
        intro hmem
        rcases mapData_keys code msg ctx k hmem with h | h
        · simp at h
          rcases h with h' | h'
          · exact hkd h'
          · exact hki h'
        · exact hka h
  · intro code msg cause cctx
    have h1 : errorsAsBase (.appErr .baseOnly code msg cause (some cctx)) =
        some (code, msg, some cctx) := by
      simp [errorsAsBase]
    have h2 : errorsAsBase (.appErr .baseOnly code msg cause
        (some (cctx.filter (fun kv => allowedKeys.contains kv.1)))) =
        some (code, msg, some (cctx.filter (fun kv => allowedKeys.contains kv.1))) := by
      simp [errorsAsBase]
    rw [mapErr_eq_some _ code msg _ h1, mapErr_eq_some _ code msg _ h2]
    have hd : mapData code msg (some (cctx.filter (fun kv => allowedKeys.contains kv.1))) =
        mapData code msg (some cctx) := by
      simp only [mapData]
      exact mergeContext_filter cctx _
    rw [hd]

/-- Witness for the amended claim C4 at a concrete input: the
non-allowlisted context key `secret` does not appear in the data returned
for a parse error carrying `{secret: s}`. -/
theorem claim_C4_witness :
    "secret" ∉ ctxKeys ((MapAppErrorToJSONRPC (.appErr .baseOnly (-32700) "m" none
        (some [("secret", .str "s")]))).data.getD []) :=
  claim_C4_amended.1 (.appErr .baseOnly (-32700) "m" none (some [("secret", .str "s")]))
    "secret" (by decide) (by decide) (by decide) (by decide)

/-- After any sequence of `RecordError` calls on a collector whose buffer
is within capacity, the buffer holds the suffix of all entries ever
appended that fits the capacity: eviction is FIFO, one oldest entry per
overflowing append. -/
theorem recordErrors_buffer_drop (n : Nat) (hn : 0 < n) :
    ∀ (es : List ErrorInfo) (c : Collector), c.bufferSize = (n : Int) →
      c.errorBuffer.length ≤ n →
      (recordErrors c es).errorBuffer =
        (c.errorBuffer ++ es).drop (c.errorBuffer.length + es.length - n) := by
  intro es
  induction es with
  | nil =>
    intro c hsz hlen
    simp [recordErrors, Nat.sub_eq_zero_of_le hlen]
  | cons e rest ih =>
    intro c hsz hlen
    have hstep : recordErrors c (e :: rest) = recordErrors (recordErrorInfo c e) rest := rfl
    rw [hstep]
    have hpos : ¬ (c.bufferSize ≤ 0) := by
      rw [hsz]
      exact_mod_cast Nat.not_le.mpr hn
    by_cases hfull : (c.errorBuffer.length : Int) ≥ c.bufferSize
    · have hlen_eq : c.errorBuffer.length = n := by
        rw [hsz] at hfull
        exact le_antisymm hlen (by exact_mod_cast hfull)
      have hb : (recordErrorInfo c e).errorBuffer = c.errorBuffer.drop 1 ++ [e] := by
        simp [recordErrorInfo, recordError, hpos, hfull]
      have hbs : (recordErrorInfo c e).bufferSize = c.bufferSize := by
        simp [recordErrorInfo, recordError, hpos, hfull]
      have hdroplen : (c.errorBuffer.drop 1 ++ [e]).length = n := by
        simp
        omega
      have hlen' : (recordErrorInfo c e).errorBuffer.length ≤ n := by
        rw [hb, hdroplen]
      have h := ih (recordErrorInfo c e) (by rw [hbs, hsz]) hlen'
      rw [hb] at h
      rw [hdroplen] at h
      rw [h]
      have hidx : n + rest.length - n = rest.length := by omega
      rw [hidx]
      have hidx2 : c.errorBuffer.length + (e :: rest).length - n = rest.length + 1 := by
        simp
        omega
      rw [hidx2]
      have hassoc : c.errorBuffer.drop 1 ++ [e] ++ rest = c.errorBuffer.drop 1 ++ e :: rest := by
        simp
      rw [hassoc]
      have hsplit : (c.errorBuffer ++ e :: rest).drop (rest.length + 1) =
          ((c.errorBuffer ++ e :: rest).drop 1).drop rest.length := by
        rw [List.drop_drop]
        congr 1
        omega
      have hd1 : (c.errorBuffer ++ e :: rest).drop 1 = c.errorBuffer.drop 1 ++ e :: rest :=
        List.drop_append_of_le_length (by omega)
      rw [hsplit, hd1]
    · have hb : (recordErrorInfo c e).errorBuffer = c.errorBuffer ++ [e] := by
        simp [recordErrorInfo, recordError, hpos, hfull]
      have hbs : (recordErrorInfo c e).bufferSize = c.bufferSize := by
        simp [recordErrorInfo, recordError, hpos, hfull]
      have hlt : c.errorBuffer.length < n := by
        rw [hsz] at hfull
        have := lt_of_not_ge hfull
        exact_mod_cast this
      have hlen' : (recordErrorInfo c e).errorBuffer.length ≤ n := by
        rw [hb]
        simp
        omega
      have h := ih (recordErrorInfo c e) (by rw [hbs, hsz]) hlen'
      rw [hb] at h
      rw [h]
      have hassoc : c.errorBuffer ++ [e] ++ rest = c.errorBuffer ++ e :: rest := by
        simp
      rw [hassoc]
      congr 1
      simp
      omega

/-- Claim C5: with a positive capacity N, recording N+k errors into an
initially empty buffer leaves exactly the N most-recent entries in
insertion order — the k oldest entries have been evicted first — so the
history has length N and contains the recent entries (in particular the k
most-recent ones as its suffix); with a non-positive configured capacity,
`RecordError` is a no-op. -/
theorem claim_C5_error_buffer_fifo :
    (∀ (n k : Nat) (es : List ErrorInfo) (c : Collector),
        0 < n → c.bufferSize = (n : Int) → c.errorBuffer = [] →
        es.length = n + k →
        (recordErrors c es).errorBuffer = es.drop k ∧
        (recordErrors c es).errorBuffer.length = n) ∧
    (∀ (c : Collector) (now : Nat) (component message stack : String),
        c.bufferSize ≤ 0 → recordError c now component message stack = c) := by
  constructor
  · intro n k es c hn hsz hempty hlen
    have h := recordErrors_buffer_drop n hn es c hsz (by simp [hempty])
    rw [hempty] at h
    simp only [List.nil_append, List.length_nil, Nat.zero_add] at h
    constructor
    · rw [h, hlen]
      congr 1
      omega
    · rw [h]
      simp
      omega
  · intro c now component message stack h
    simp [recordError, h]

/-- Witness for claim C5 at a concrete input: capacity 2, three recorded
errors, the first one evicted; and a capacity-0 collector ignores
`RecordError` entirely. -/
theorem claim_C5_witness :
    ((recordErrors (NewCollector 2) exampleErrors).errorBuffer = exampleErrors.drop 1 ∧
      (recordErrors (NewCollector 2) exampleErrors).errorBuffer.length = 2) ∧
    recordError (NewCollector 0) 7 "x" "y" "z" = NewCollector 0 :=
  ⟨claim_C5_error_buffer_fifo.1 2 1 exampleErrors (NewCollector 2)
      (by decide) rfl rfl (by decide),
   claim_C5_error_buffer_fifo.2 (NewCollector 0) 7 "x" "y" "z" (by decide)⟩

/-- Claim C6: marking a never-before-seen id active increments
`TotalConnections` by exactly 1; marking it active a second time changes
nothing; and after every `RecordConnection` call the `ActiveConnections`
gauge equals the size of the tracked set (its length, and — since the
operations preserve key uniqueness — the cardinality of the set of ids
marked active). -/
theorem claim_C6_connection_counters :
    (∀ (c : Collector) (id : String), id ∉ c.activeConnections →
        (recordConnection c id true).totalConnections = c.totalConnections + 1) ∧
    (∀ (c : Collector) (id : String),
        (recordConnection (recordConnection c id true) id true).totalConnections =
          (recordConnection c id true).totalConnections) ∧
    (∀ (c : Collector) (id : String) (active : Bool),
        (recordConnection c id active).activeConnGauge =
          ((recordConnection c id active).activeConnections.length : Int)) ∧
    (∀ (c : Collector) (id : String) (active : Bool), c.activeConnections.Nodup →
        (recordConnection c id active).activeConnections.Nodup ∧
        (recordConnection c id active).activeConnGauge =
          ((recordConnection c id active).activeConnections.toFinset.card : Int)) := by
  have hgauge : ∀ (c : Collector) (id : String) (active : Bool),
      (recordConnection c id active).activeConnGauge =
        ((recordConnection c id active).activeConnections.length : Int) := by
    intro c id active
    cases active <;> by_cases hm : id ∈ c.activeConnections <;>
      simp [recordConnection, hm]
  have hnodup : ∀ (c : Collector) (id : String) (active : Bool),
      c.activeConnections.Nodup → (recordConnection c id active).activeConnections.Nodup := by
    intro c id active hnd
    cases active with
    | false =>
      simp only [recordConnection]
      simp
      exact hnd.filter _
    | true =>
      by_cases hm : id ∈ c.activeConnections
      · simp [recordConnection, hm, hnd]
      · simp [recordConnection, hm, List.nodup_append, hnd]
  refine ⟨?_, ?_, hgauge, ?_⟩
  · intro c id hni
    simp [recordConnection, hni]
  · intro c id
    by_cases hm : id ∈ c.activeConnections
    · simp [recordConnection, hm]
    · have hmem : id ∈ c.activeConnections ++ [id] := by simp
      simp [recordConnection, hm, hmem]
  · intro c id active hnd
    have hnd' := hnodup c id active hnd
    refine ⟨hnd', ?_⟩
    rw [List.toFinset_card_of_nodup hnd']
    exact hgauge c id active

/-- Witness for claim C6 at a concrete input: on a fresh collector, the
first activation of `a` takes `TotalConnections` from 0 to 1, and the
gauge equals the cardinality of the tracked set. -/
theorem claim_C6_witness :
    (recordConnection (NewCollector 5) "a" true).totalConnections =
      (NewCollector 5).totalConnections + 1 ∧
    ((recordConnection (NewCollector 5) "a" true).activeConnections.Nodup ∧
      (recordConnection (NewCollector 5) "a" true).activeConnGauge =
        ((recordConnection (NewCollector 5) "a" true).activeConnections.toFinset.card : Int)) :=
  ⟨claim_C6_connection_counters.1 (NewCollector 5) "a" (by decide),
   claim_C6_connection_counters.2.2.2 (NewCollector 5) "a" true (by decide)⟩

end HelloTool

